import Mathlib

/-!
Verification of the bazel-remote asset-fetch layer: the digest-function
implementations (sha384/sha512 from cache/hashing), the action-cache key
transformation (cache/cache.go), and the FetchBlob asset-resolution protocol
(the grpc asset server), modelled as executable Lean definitions.  The
protocol functions additionally produce an explicit event trace recording
registry lookups, cache queries, HTTP requests, hash computations and cache
writes, so that ordering and "no work of kind X happens" properties can be
stated as facts about the trace.
-/

namespace BazelRemote

/-! ## Hex encoding (encoding/hex.EncodeToString) -/

def hexTable : List Char := "0123456789abcdef".data

def hexDigitChar (n : Nat) : Char := hexTable.getD (n % 16) '0'

/-- One byte to two lowercase hex digits (high nibble first, as in Go). -/
def byteHexChars (b : Nat) : List Char := [hexDigitChar (b / 16), hexDigitChar b]

def hexEncodeChars (bs : List Nat) : List Char := (bs.map byteHexChars).flatten

def hexEncodeString (bs : List Nat) : String := String.mk (hexEncodeChars bs)

/-! ## SHA-512 / SHA-384 (crypto/sha512), bytes as Nat < 256, words as Nat mod 2^64 -/

def M64 : Nat := 2 ^ 64

def rotr64 (x r : Nat) : Nat := ((x >>> r) ||| (x <<< (64 - r))) % M64

def not64 (x : Nat) : Nat := (M64 - 1) ^^^ (x % M64)

def ch64 (x y z : Nat) : Nat := (x &&& y) ^^^ (not64 x &&& z)

def maj64 (x y z : Nat) : Nat := (x &&& y) ^^^ (x &&& z) ^^^ (y &&& z)

def bigS0of64 (x : Nat) : Nat := rotr64 x 28 ^^^ rotr64 x 34 ^^^ rotr64 x 39

def bigS1of64 (x : Nat) : Nat := rotr64 x 14 ^^^ rotr64 x 18 ^^^ rotr64 x 41

def smallS0of64 (x : Nat) : Nat := rotr64 x 1 ^^^ rotr64 x 8 ^^^ ((x % M64) >>> 7)

def smallS1of64 (x : Nat) : Nat := rotr64 x 19 ^^^ rotr64 x 61 ^^^ ((x % M64) >>> 6)

def K512 : List Nat := [
  4794697086780616226, 8158064640168781261, 13096744586834688815,
  16840607885511220156, 4131703408338449720, 6480981068601479193,
  10538285296894168987, 12329834152419229976, 15566598209576043074,
  1334009975649890238, 2608012711638119052, 6128411473006802146,
  8268148722764581231, 9286055187155687089, 11230858885718282805,
  13951009754708518548, 16472876342353939154, 17275323862435702243,
  1135362057144423861, 2597628984639134821, 3308224258029322869,
  5365058923640841347, 6679025012923562964, 8573033837759648693,
  10970295158949994411, 12119686244451234320, 12683024718118986047,
  13788192230050041572, 14330467153632333762, 15395433587784984357,
  489312712824947311, 1452737877330783856, 2861767655752347644,
  3322285676063803686, 5560940570517711597, 5996557281743188959,
  7280758554555802590, 8532644243296465576, 9350256976987008742,
  10552545826968843579, 11727347734174303076, 12113106623233404929,
  14000437183269869457, 14369950271660146224, 15101387698204529176,
  15463397548674623760, 17586052441742319658, 1182934255886127544,
  1847814050463011016, 2177327727835720531, 2830643537854262169,
  3796741975233480872, 4115178125766777443, 5681478168544905931,
  6601373596472566643, 7507060721942968483, 8399075790359081724,
  8693463985226723168, 9568029438360202098, 10144078919501101548,
  10430055236837252648, 11840083180663258601, 13761210420658862357,
  14299343276471374635, 14566680578165727644, 15097957966210449927,
  16922976911328602910, 17689382322260857208, 500013540394364858,
  748580250866718886, 1242879168328830382, 1977374033974150939,
  2944078676154940804, 3659926193048069267, 4368137639120453308,
  4836135668995329356, 5532061633213252278, 6448918945643986474,
  6902733635092675308, 7801388544844847127]

/-- Big-endian serialization of `n` into `k` bytes. -/
def beBytes : Nat → Nat → List Nat
  | 0, _ => []
  | k + 1, n => beBytes k (n >>> 8) ++ [n % 256]

/-- SHA-384/512 message padding: append 0x80, zeros, and the 16-byte
big-endian bit length, reaching a multiple of 128 bytes. -/
def pad512 (msg : List Nat) : List Nat :=
  let l := msg.length
  let k := (112 + 128 - ((l + 1) % 128)) % 128
  msg ++ [0x80] ++ List.replicate k 0 ++ beBytes 16 (8 * l)

/-- Split into consecutive chunks of width `w` (length assumed a multiple of `w`). -/
def chunkList (w : Nat) (bs : List Nat) : List (List Nat) :=
  (List.range (bs.length / w)).map (fun i => (bs.drop (w * i)).take w)

def bytesToWords64 : List Nat → List Nat
  | b0 :: b1 :: b2 :: b3 :: b4 :: b5 :: b6 :: b7 :: rest =>
    ((((((((((((((b0 <<< 8) ||| b1) <<< 8) ||| b2) <<< 8) ||| b3) <<< 8) ||| b4) <<< 8)
      ||| b5) <<< 8) ||| b6) <<< 8) ||| b7) :: bytesToWords64 rest
  | _ => []

def nextW64 (ws : List Nat) : Nat :=
  let n := ws.length
  (smallS1of64 (ws.getD (n - 2) 0) + ws.getD (n - 7) 0 +
    smallS0of64 (ws.getD (n - 15) 0) + ws.getD (n - 16) 0) % M64

def schedule512 (initWs : List Nat) : List Nat :=
  (List.range 64).foldl (fun ws _ => ws ++ [nextW64 ws]) initWs

/-- The eight-word working state of a SHA-2 compression (also used for SHA-256). -/
structure Sha2St where
  a : Nat
  b : Nat
  c : Nat
  d : Nat
  e : Nat
  f : Nat
  g : Nat
  hh : Nat
  deriving Repr, DecidableEq

def round512 (st : Sha2St) (k w : Nat) : Sha2St :=
  let t1 := (st.hh + bigS1of64 st.e + ch64 st.e st.f st.g + k + w) % M64
  let t2 := (bigS0of64 st.a + maj64 st.a st.b st.c) % M64
  ⟨(t1 + t2) % M64, st.a, st.b, st.c, (st.d + t1) % M64, st.e, st.f, st.g⟩

def compress512 (st : Sha2St) (block : List Nat) : Sha2St :=
  let ws := schedule512 (bytesToWords64 block)
  let st2 := (K512.zip ws).foldl (fun s kw => round512 s kw.1 kw.2) st
  ⟨(st.a + st2.a) % M64, (st.b + st2.b) % M64, (st.c + st2.c) % M64, (st.d + st2.d) % M64,
    (st.e + st2.e) % M64, (st.f + st2.f) % M64, (st.g + st2.g) % M64, (st.hh + st2.hh) % M64⟩

def iv512 : Sha2St :=
  ⟨0x6a09e667f3bcc908, 0xbb67ae8584caa73b, 0x3c6ef372fe94f82b, 0xa54ff53a5f1d36f1,
    0x510e527fade682d1, 0x9b05688c2b3e6c1f, 0x1f83d9abfb41bd6b, 0x5be0cd19137e2179⟩

def iv384 : Sha2St :=
  ⟨0xcbbb9d5dc1059ed8, 0x629a292a367cd507, 0x9159015a3070dd17, 0x152fecd8f70e5939,
    0x67332667ffc00b31, 0x8eb44a8768581511, 0xdb0c2e0d64f98fa7, 0x47b5481dbefa4fa4⟩

def sha512Core (iv : Sha2St) (msg : List Nat) : Sha2St :=
  (chunkList 128 (pad512 msg)).foldl compress512 iv

/-- crypto/sha512.Sum512 digest bytes. -/
def sha512Bytes (msg : List Nat) : List Nat :=
  let s := sha512Core iv512 msg
  beBytes 8 s.a ++ beBytes 8 s.b ++ beBytes 8 s.c ++ beBytes 8 s.d ++
    beBytes 8 s.e ++ beBytes 8 s.f ++ beBytes 8 s.g ++ beBytes 8 s.hh

/-- crypto/sha512.Sum384 digest bytes (first six words of the sha384-IV state). -/
def sha384Bytes (msg : List Nat) : List Nat :=
  let s := sha512Core iv384 msg
  beBytes 8 s.a ++ beBytes 8 s.b ++ beBytes 8 s.c ++ beBytes 8 s.d ++
    beBytes 8 s.e ++ beBytes 8 s.f

/-! ## SHA-256 (crypto/sha256), words as Nat mod 2^32 -/

def M32 : Nat := 2 ^ 32

def rotr32 (x r : Nat) : Nat := ((x >>> r) ||| (x <<< (32 - r))) % M32

def not32 (x : Nat) : Nat := (M32 - 1) ^^^ (x % M32)

def ch32 (x y z : Nat) : Nat := (x &&& y) ^^^ (not32 x &&& z)

def maj32 (x y z : Nat) : Nat := (x &&& y) ^^^ (x &&& z) ^^^ (y &&& z)

def bigS0of32 (x : Nat) : Nat := rotr32 x 2 ^^^ rotr32 x 13 ^^^ rotr32 x 22

def bigS1of32 (x : Nat) : Nat := rotr32 x 6 ^^^ rotr32 x 11 ^^^ rotr32 x 25

def smallS0of32 (x : Nat) : Nat := rotr32 x 7 ^^^ rotr32 x 18 ^^^ ((x % M32) >>> 3)

def smallS1of32 (x : Nat) : Nat := rotr32 x 17 ^^^ rotr32 x 19 ^^^ ((x % M32) >>> 10)

def K256 : List Nat := [
  1116352408, 1899447441, 3049323471, 3921009573, 961987163,
  1508970993, 2453635748, 2870763221, 3624381080, 310598401,
  607225278, 1426881987, 1925078388, 2162078206, 2614888103,
  3248222580, 3835390401, 4022224774, 264347078, 604807628,
  770255983, 1249150122, 1555081692, 1996064986, 2554220882,
  2821834349, 2952996808, 3210313671, 3336571891, 3584528711,
  113926993, 338241895, 666307205, 773529912, 1294757372,
  1396182291, 1695183700, 1986661051, 2177026350, 2456956037,
  2730485921, 2820302411, 3259730800, 3345764771, 3516065817,
  3600352804, 4094571909, 275423344, 430227734, 506948616,
  659060556, 883997877, 958139571, 1322822218, 1537002063,
  1747873779, 1955562222, 2024104815, 2227730452, 2361852424,
  2428436474, 2756734187, 3204031479, 3329325298]

def pad256 (msg : List Nat) : List Nat :=
  let l := msg.length
  let k := (56 + 64 - ((l + 1) % 64)) % 64
  msg ++ [0x80] ++ List.replicate k 0 ++ beBytes 8 (8 * l)

def bytesToWords32 : List Nat → List Nat
  | b0 :: b1 :: b2 :: b3 :: rest =>
    ((((((b0 <<< 8) ||| b1) <<< 8) ||| b2) <<< 8) ||| b3) :: bytesToWords32 rest
  | _ => []

def nextW32 (ws : List Nat) : Nat :=
  let n := ws.length
  (smallS1of32 (ws.getD (n - 2) 0) + ws.getD (n - 7) 0 +
    smallS0of32 (ws.getD (n - 15) 0) + ws.getD (n - 16) 0) % M32

def schedule256 (initWs : List Nat) : List Nat :=
  (List.range 48).foldl (fun ws _ => ws ++ [nextW32 ws]) initWs

def round256 (st : Sha2St) (k w : Nat) : Sha2St :=
  let t1 := (st.hh + bigS1of32 st.e + ch32 st.e st.f st.g + k + w) % M32
  let t2 := (bigS0of32 st.a + maj32 st.a st.b st.c) % M32
  ⟨(t1 + t2) % M32, st.a, st.b, st.c, (st.d + t1) % M32, st.e, st.f, st.g⟩

def compress256 (st : Sha2St) (block : List Nat) : Sha2St :=
  let ws := schedule256 (bytesToWords32 block)
  let st2 := (K256.zip ws).foldl (fun s kw => round256 s kw.1 kw.2) st
  ⟨(st.a + st2.a) % M32, (st.b + st2.b) % M32, (st.c + st2.c) % M32, (st.d + st2.d) % M32,
    (st.e + st2.e) % M32, (st.f + st2.f) % M32, (st.g + st2.g) % M32, (st.hh + st2.hh) % M32⟩

def iv256 : Sha2St :=
  ⟨0x6a09e667, 0xbb67ae85, 0x3c6ef372, 0xa54ff53a,
    0x510e527f, 0x9b05688c, 0x1f83d9ab, 0x5be0cd19⟩

/-- crypto/sha256.Sum256 digest bytes. -/
def sha256Bytes (msg : List Nat) : List Nat :=
  let s := (chunkList 64 (pad256 msg)).foldl compress256 iv256
  beBytes 4 s.a ++ beBytes 4 s.b ++ beBytes 4 s.c ++ beBytes 4 s.d ++
    beBytes 4 s.e ++ beBytes 4 s.f ++ beBytes 4 s.g ++ beBytes 4 s.hh

/-! ## Digest functions and hashers (cache/hashing)

The `pb.DigestFunction_Value` wire enum; only the values relevant to this
code are listed, with `unknown` as the proto zero value. -/

inductive DigestFunction where
  | unknown
  | sha256
  | sha1
  | md5
  | sha384
  | sha512
  deriving Repr, DecidableEq

/-- The hashers implemented in this code: sha386.go and sha512.go. -/
inductive Hasher where
  | sha384
  | sha512
  deriving Repr, DecidableEq

/-- sha384Hasher.Hash / sha512Hasher.Hash: one-shot digest, hex encoded. -/
def Hasher.hash : Hasher → List Nat → String
  | .sha384, data => hexEncodeString (sha384Bytes data)
  | .sha512, data => hexEncodeString (sha512Bytes data)

/-- sha384Hasher.DigestFunction / sha512Hasher.DigestFunction. -/
def Hasher.digestFunction : Hasher → DigestFunction
  | .sha384 => .sha384
  | .sha512 => .sha512

/-- sha384Hasher.Dir / sha512Hasher.Dir. -/
def Hasher.dir : Hasher → String
  | .sha384 => "sha384"
  | .sha512 => "sha512"

/-- sha384Hasher.Empty / sha512Hasher.Empty, each copied verbatim from the
source: NOTE that sha386.go returns the same 128-hex-char constant as
sha512.go (the SHA-512 empty digest), not a SHA-384 digest. -/
def Hasher.empty : Hasher → String
  | .sha384 => "cf83e1357eefb8bdf1542850d66d8007d620e4050b5715dc83f4a921d36ce9ce47d0d13c5d85f2b0ff8318d2877eec2f63b931bd47417a81a538327af927da3e"
  | .sha512 => "cf83e1357eefb8bdf1542850d66d8007d620e4050b5715dc83f4a921d36ce9ce47d0d13c5d85f2b0ff8318d2877eec2f63b931bd47417a81a538327af927da3e"

/-- sha384Hasher.Size (sha512.Size384 = 48) / sha512Hasher.Size (sha512.Size = 64). -/
def Hasher.size : Hasher → Nat
  | .sha384 => 48
  | .sha512 => 64

def isHexLowerChar (c : Char) : Bool :=
  ('a' ≤ c && c ≤ 'f') || ('0' ≤ c && c ≤ '9')

/-- regexp `^[a-f0-9]{n}$` over a Go string: matches iff the string consists of
exactly `n` characters from the class (ASCII, one byte each). -/
def hexRegexMatch (n : Nat) (s : String) : Bool :=
  s.data.length == n && s.data.all isHexLowerChar

/-- sha384Hasher.Validate / sha512Hasher.Validate. Go `len(value)` counts
UTF-8 bytes, hence `utf8ByteSize`. `none` means no error. -/
def Hasher.validate : Hasher → String → Option String
  | .sha384, value =>
    if 48 * 2 != value.utf8ByteSize then some "Invalid sha384 hash length"
    else if !hexRegexMatch 96 value then some "Malformed sha384 hash"
    else none
  | .sha512, value =>
    if 64 * 2 != value.utf8ByteSize then some "Invalid sha512 hash length"
    else if !hexRegexMatch 128 value then some "Malformed sha512 hash"
    else none

/-- sha384Hasher.ValidateDigest / sha512Hasher.ValidateDigest. -/
def Hasher.validateDigest (h : Hasher) (hash : String) (size : Int) : Option String :=
  if size == 0 then
    if hash == h.empty then none else some "Invalid zero-length hash"
  else h.validate hash

/-- Modelled from the spec: the hasher registry lookup `hashing.Get`
(the registry source file is not under src/; spec section 4.1: lookups by
unknown id fail with a descriptive error, never panic).  The hashers
registered by the code under src/ are sha384 and sha512. -/
def hashingGet : DigestFunction → Option Hasher
  | .sha384 => some .sha384
  | .sha512 => some .sha512
  | _ => none

/-- Modelled from the spec: `hashing.DigestFunction` name lookup
(spec section 4.1 `DigestFunctionByName(name) -> enum id | zero-value`),
mapping a registered hasher's canonical name to its enum id and any other
string to the zero value. -/
def digestFunctionByName (s : String) : DigestFunction :=
  if s == "sha384" then .sha384
  else if s == "sha512" then .sha512
  else .unknown

/-! ## cache package (cache/cache.go) -/

inductive EntryKind where
  | ac
  | cas
  | raw
  deriving Repr, DecidableEq

def EntryKind.string : EntryKind → String
  | .ac => "ac"
  | .cas => "cas"
  | .raw => "raw"

def EntryKind.dirName : EntryKind → String
  | .ac => "ac.v2"
  | .cas => "cas.v2"
  | .raw => "raw.v2"

def lookupKey (kind : EntryKind) (hash : String) : String :=
  kind.string ++ "/" ++ hash

/-- UTF-8 encoding of one character (the bytes Go appends for a string). -/
def utf8CharBytes (c : Char) : List Nat :=
  let n := c.toNat
  if n < 0x80 then [n]
  else if n < 0x800 then
    [0xc0 ||| (n >>> 6), 0x80 ||| (n &&& 0x3f)]
  else if n < 0x10000 then
    [0xe0 ||| (n >>> 12), 0x80 ||| ((n >>> 6) &&& 0x3f), 0x80 ||| (n &&& 0x3f)]
  else
    [0xf0 ||| (n >>> 18), 0x80 ||| ((n >>> 12) &&& 0x3f),
      0x80 ||| ((n >>> 6) &&& 0x3f), 0x80 ||| (n &&& 0x3f)]

/-- The bytes of a Go string (UTF-8). -/
def strBytes (s : String) : List Nat := (s.data.map utf8CharBytes).flatten

/-- cache.TransformActionCacheKey.  The Go code feeds `key` then `instance`
into one crypto/sha256 accumulator and hex-encodes the sum; by the streaming
contract of crypto/sha256 that digest is SHA256(key ++ instance).  The logger
argument only receives a log line and cannot influence the result, so it is
not modelled. -/
def transformActionCacheKey (key inst : String) : String :=
  if inst = "" then key
  else hexEncodeString (sha256Bytes (strBytes key ++ strBytes inst))

/-! ## base64 standard decoding (encoding/base64.StdEncoding.DecodeString)

Quantum-by-quantum decoding with mandatory padding, as in Go: an input whose
length is not a multiple of four, an invalid character, or padding anywhere
except the final quantum is a decode error (`none`).  (Go additionally skips
carriage returns and newlines inside the input; no claim involves such
inputs and they are not modelled.) -/

def b64Index (c : Char) : Option Nat :=
  if 'A' ≤ c && c ≤ 'Z' then some (c.toNat - 65)
  else if 'a' ≤ c && c ≤ 'z' then some (c.toNat - 97 + 26)
  else if '0' ≤ c && c ≤ '9' then some (c.toNat - 48 + 52)
  else if c = '+' then some 62
  else if c = '/' then some 63
  else none

def base64DecodeQuanta : List Char → Option (List Nat)
  | [] => some []
  | c1 :: c2 :: c3 :: c4 :: rest => do
    let i1 ← b64Index c1
    let i2 ← b64Index c2
    if c3 = '=' then
      if c4 = '=' && rest.isEmpty then
        some [(i1 <<< 2) ||| (i2 >>> 4)]
      else none
    else do
      let i3 ← b64Index c3
      if c4 = '=' then
        if rest.isEmpty then
          some [(i1 <<< 2) ||| (i2 >>> 4), ((i2 &&& 15) <<< 4) ||| (i3 >>> 2)]
        else none
      else do
        let i4 ← b64Index c4
        let tail ← base64DecodeQuanta rest
        some ([(i1 <<< 2) ||| (i2 >>> 4), ((i2 &&& 15) <<< 4) ||| (i3 >>> 2),
          ((i3 &&& 3) <<< 6) ||| i4] ++ tail)
  | _ => none

def base64Decode (s : String) : Option (List Nat) := base64DecodeQuanta s.data

/-! ## strings.SplitN(value, "-", 2) -/

def splitFirstDash : List Char → Option (List Char × List Char)
  | [] => none
  | c :: cs =>
    if c = '-' then some ([], cs)
    else (splitFirstDash cs).map (fun p => (c :: p.1, p.2))

/-- `strings.SplitN(s, "-", 2)`: one part when `s` has no dash, otherwise the
prefix before the first dash and everything after it. -/
def splitN2 (s : String) : String × Option String :=
  match splitFirstDash s.data with
  | none => (s, none)
  | some (a, b) => (String.mk a, some (String.mk b))

/-! ## net/url scheme extraction (url.Parse / getScheme)

Faithful to Go's getScheme loop: a scheme is a leading run of
alphanumeric/+-. characters starting with a letter and terminated by a colon;
a colon as the very first character is a parse error ("missing protocol
scheme"); anything else yields an empty scheme.  url.Parse then lowercases
the scheme.  (Parse errors arising later — e.g. invalid percent escapes —
are not modelled; no claim involves such URIs, and fetchItem treats a parse
error and a non-http scheme identically apart from the log line.) -/

def isAlphaChar (c : Char) : Bool :=
  ('a' ≤ c && c ≤ 'z') || ('A' ≤ c && c ≤ 'Z')

def isSchemeExtraChar (c : Char) : Bool :=
  ('0' ≤ c && c ≤ '9') || c = '+' || c = '-' || c = '.'

def getSchemeChars : List Char → List Char → Option (List Char)
  | _, [] => some []
  | acc, c :: cs =>
    if isAlphaChar c then getSchemeChars (acc ++ [c]) cs
    else if isSchemeExtraChar c then
      if acc.isEmpty then some [] else getSchemeChars (acc ++ [c]) cs
    else if c = ':' then
      if acc.isEmpty then none else some acc
    else some []

/-- The (lowercased) scheme of a URI, `none` on a parse error. -/
def uriScheme (uri : String) : Option String :=
  (getSchemeChars [] uri.data).map (fun cs => String.mk (cs.map Char.toLower))

/-! ## The FetchBlob asset server (server/grpc_asset.go)

External collaborators — the cache facade and the HTTP client — are passed
in as explicit models of their behaviour during the call.  Every protocol
function additionally returns the list of observable events it performed, in
order. -/

/-- Observable events of one FetchBlob call. -/
inductive Ev where
  /-- a `hashing.Get` registry lookup -/
  | getHasher (df : DigestFunction)
  /-- entering the qualifier loop body for the qualifier at index `i` -/
  | qualStart (i : Nat)
  /-- a `cache.Contains` query for a CAS hash -/
  | containsQ (hash : String)
  /-- a `cache.Get` issued solely to learn a blob's size -/
  | casGet (hash : String)
  /-- entering the URI loop body for `uri` -/
  | uriStart (uri : String)
  /-- an outbound `http.Get` -/
  | httpGet (uri : String)
  /-- `hasher.Hash` computed over fetched bytes -/
  | hashData (data : List Nat)
  /-- a `cache.Put` of a CAS blob -/
  | putCall (hash : String) (size : Int)
  deriving Repr, DecidableEq

/-- Result of one `http.Get`: a transport error, or a response with status
code, declared Content-Length (may be negative = unknown), body bytes, and
whether reading the body fails midway. -/
inductive HttpResult where
  | transportFailed
  | resp (status : Nat) (contentLength : Int) (body : List Nat) (bodyReadFails : Bool)
  deriving Repr, DecidableEq

inductive PutOutcome where
  | eofErr
  | otherErr
  deriving Repr, DecidableEq

/-- Behaviour of the cache facade during this call.  The hasher argument is
an interface value in Go and may be nil, hence `Option Hasher`. -/
structure CacheModel where
  /-- Contains(ctx, kind, hasher, hash, size) -> (found, size) -/
  contains : EntryKind → Option Hasher → String → Int → Bool × Int
  /-- Get(ctx, kind, hasher, hash, size, offset) -> (actualSize, errored) -/
  get : EntryKind → Option Hasher → String → Int → Int → Int × Bool
  /-- Put(ctx, kind, hasher, hash, size, stream-bytes) -> error -/
  put : EntryKind → Option Hasher → String → Int → List Nat → Option PutOutcome

structure Qualifier where
  name : String
  value : String
  deriving Repr, DecidableEq

/-- FetchBlobRequest; qualifier entries are pointers in Go and may be nil. -/
structure FetchBlobRequest where
  digestFunction : DigestFunction := .unknown
  qualifiers : List (Option Qualifier) := []
  uris : List String := []
  deriving Repr, DecidableEq

/-- FetchBlobResponse with its embedded status.  Proto zero values as
defaults. -/
structure FetchBlobResponse where
  digestFunction : DigestFunction := .unknown
  statusCode : Int := 0
  statusMessage : String := ""
  blobDigest : Option (String × Int) := none
  uri : String := ""
  deriving Repr, DecidableEq

def codeOK : Int := 0
def codeInvalidArgument : Int := 3
def codeNotFound : Int := 5

def nilQualifierResponse : FetchBlobResponse :=
  { statusCode := codeInvalidArgument
    statusMessage := "unexpected nil qualifier in FetchBlobRequest" }

def okHitResponse (df : DigestFunction) (hash : String) (size : Int) : FetchBlobResponse :=
  { digestFunction := df, statusCode := codeOK, blobDigest := some (hash, size) }

def okUriResponse (df : DigestFunction) (hash : String) (size : Int) (uri : String) :
    FetchBlobResponse :=
  { digestFunction := df, statusCode := codeOK, blobDigest := some (hash, size), uri := uri }

def notFoundResponse : FetchBlobResponse := { statusCode := codeNotFound }

/-- Result of the whole RPC: a Go runtime panic, a transport-level error
(nil response), or a successfully returned response. -/
inductive FetchOutcome where
  | panicked
  | transportError (code : Int)
  | response (r : FetchBlobResponse)
  deriving Repr, DecidableEq

/-- fetchItem (grpc_asset.go): try one URI.  `none` in the first component
is a Go runtime panic (nil hasher interface).  `some (ok, hash, size)`
mirrors the Go return triple. -/
def fetchItem (cache : CacheModel) (http : String → HttpResult) (hasher : Option Hasher)
    (uri : String) (expectedHash : String) : Option (Bool × String × Int) × List Ev :=
  match uriScheme uri with
  | none => (some (false, "", -1), [])
  | some scheme =>
    if scheme ≠ "http" ∧ scheme ≠ "https" then (some (false, "", -1), [])
    else
      match http uri with
      | .transportFailed => (some (false, "", -1), [.httpGet uri])
      | .resp status contentLength body bodyReadFails =>
        if status < 200 ∨ 300 ≤ status then (some (false, "", -1), [.httpGet uri])
        else if expectedHash = "" ∨ contentLength < 0 then
          -- the hash and size are unknown up front: buffer the whole body
          if bodyReadFails then (some (false, "", -1), [.httpGet uri])
          else
            match hasher with
            | none => (none, [.httpGet uri])
            | some h =>
              let hashStr := h.hash body
              let size : Int := body.length
              if expectedHash ≠ "" ∧ hashStr ≠ expectedHash then
                (some (false, "", -1), [.httpGet uri, .hashData body])
              else
                match cache.put .cas hasher hashStr size body with
                | some .otherErr =>
                  (some (false, "", -1), [.httpGet uri, .hashData body, .putCall hashStr size])
                | _ =>
                  (some (true, hashStr, size), [.httpGet uri, .hashData body, .putCall hashStr size])
        else
          -- expected hash known and Content-Length declared: stream straight to Put
          match cache.put .cas hasher expectedHash contentLength body with
          | some .otherErr =>
            (some (false, "", -1), [.httpGet uri, .putCall expectedHash contentLength])
          | _ =>
            (some (true, expectedHash, contentLength),
              [.httpGet uri, .putCall expectedHash contentLength])

/-- Outcome of processing a single qualifier inside the loop. -/
inductive QualIter where
  | panicked
  | ret (r : FetchBlobResponse)
  | cont (hasher : Option Hasher) (hash : String)
  deriving Repr, DecidableEq

/-- One iteration of the qualifier loop of FetchBlob (the state carried
across iterations is the `hasher` and `hash` local variables). -/
def qualStep (cache : CacheModel) (q : Option Qualifier) (hasher : Option Hasher)
    (hash : String) : QualIter × List Ev :=
  match q with
  | none => (.ret nilQualifierResponse, [])
  | some q =>
    if q.name = "checksum.sri" then
      match splitN2 q.value with
      | (_, none) => (.panicked, [])  -- parts[1] on a one-element slice
      | (algName, some b64hash) =>
        let df := digestFunctionByName algName
        match base64Decode b64hash with
        | none => (.cont hasher hash, [])
        | some decoded =>
          let hash2 := hexEncodeString decoded
          match hashingGet df with
          | none => (.cont none hash2, [.getHasher df])
          | some h =>
            if (h.validate hash2).isSome then (.cont (some h) hash2, [.getHasher df])
            else
              match cache.contains .cas (some h) hash2 (-1) with
              | (false, _) => (.cont (some h) hash2, [.getHasher df, .containsQ hash2])
              | (true, size) =>
                if size < 0 then
                  let (actualSize, gerr) := cache.get .cas (some h) hash2 (-1) 0
                  if gerr ∨ actualSize < 0 then
                    (.cont (some h) hash2, [.getHasher df, .containsQ hash2, .casGet hash2])
                  else
                    (.ret (okHitResponse df hash2 actualSize),
                      [.getHasher df, .containsQ hash2, .casGet hash2])
                else
                  (.ret (okHitResponse df hash2 size), [.getHasher df, .containsQ hash2])
    else (.cont hasher hash, [])

/-- Result of the whole qualifier loop. -/
inductive QualRes where
  | panicked
  | ret (r : FetchBlobResponse)
  | fallthru (hasher : Option Hasher) (hash : String)
  deriving Repr, DecidableEq

def qualLoop (cache : CacheModel) (i : Nat) (hasher : Option Hasher) (hash : String) :
    List (Option Qualifier) → QualRes × List Ev
  | [] => (.fallthru hasher hash, [])
  | q :: qs =>
    match qualStep cache q hasher hash with
    | (.panicked, evs) => (.panicked, .qualStart i :: evs)
    | (.ret r, evs) => (.ret r, .qualStart i :: evs)
    | (.cont hasher2 hash2, evs) =>
      let (res, evs2) := qualLoop cache (i + 1) hasher2 hash2 qs
      (res, (.qualStart i :: evs) ++ evs2)

def uriLoop (cache : CacheModel) (http : String → HttpResult) (hasher : Option Hasher)
    (hash : String) : List String → FetchOutcome × List Ev
  | [] => (.response notFoundResponse, [])
  | uri :: uris =>
    match fetchItem cache http hasher uri hash with
    | (none, evs) => (.panicked, .uriStart uri :: evs)
    | (some (true, actualHash, size), evs) =>
      match hasher with
      | none => (.panicked, .uriStart uri :: evs)  -- hasher.DigestFunction() on nil
      | some h =>
        (.response (okUriResponse h.digestFunction actualHash size uri),
          .uriStart uri :: evs)
    | (some (false, _, _), evs) =>
      let (res, evs2) := uriLoop cache http hasher hash uris
      (res, (.uriStart uri :: evs) ++ evs2)

/-- Go getters are nil-safe: a nil request yields the enum zero value. -/
def reqDigestFunction : Option FetchBlobRequest → DigestFunction
  | none => .unknown
  | some r => r.digestFunction

def reqQualifiers : Option FetchBlobRequest → List (Option Qualifier)
  | none => []
  | some r => r.qualifiers

def reqUris : Option FetchBlobRequest → List String
  | none => []
  | some r => r.uris

/-- FetchBlob (grpc_asset.go).  Mirrors the Go control flow: the digest
function hint is resolved through the registry FIRST (via the nil-safe
getter), and only then is the request checked for nil. -/
def fetchBlob (cache : CacheModel) (http : String → HttpResult)
    (req : Option FetchBlobRequest) : FetchOutcome × List Ev :=
  let df := reqDigestFunction req
  let hasher := hashingGet df
  let ev0 : List Ev := [.getHasher df]
  match req with
  | none => (.transportError codeInvalidArgument, ev0)
  | some r =>
    match qualLoop cache 0 hasher "" r.qualifiers with
    | (.panicked, evs) => (.panicked, ev0 ++ evs)
    | (.ret resp, evs) => (.response resp, ev0 ++ evs)
    | (.fallthru hasher2 hash, evs) =>
      let (out, evs2) := uriLoop cache http hasher2 hash r.uris
      (out, ev0 ++ evs ++ evs2)

/-! ## Concrete fixtures used by witnesses and counterexamples -/

/-- A cache in which nothing is found and every Put succeeds. -/
def cacheMiss : CacheModel :=
  ⟨fun _ _ _ _ => (false, -1), fun _ _ _ _ _ => (-1, true), fun _ _ _ _ _ => none⟩

/-- A cache that reports every CAS hash present with size 5. -/
def cacheHit5 : CacheModel :=
  { cacheMiss with contains := fun _ _ _ _ => (true, 5) }

def httpNone : String → HttpResult := fun _ => .transportFailed

/-- Every URI serves an empty 200 body with declared Content-Length 0. -/
def httpOkLen0 : String → HttpResult := fun _ => .resp 200 0 [] false

/-- Every URI serves an empty 200 body with unknown Content-Length. -/
def httpOkNoLen : String → HttpResult := fun _ => .resp 200 (-1) [] false

/-- Serves 404 everywhere except a 200 empty body at http://b. -/
def http404Then : String → HttpResult :=
  fun u => if u = "http://b" then .resp 200 (-1) [] false else .resp 404 (-1) [] false

/-- 128 hex zeros: a well-formed sha512 hash value that is not the digest of
the bodies served by the fixtures. -/
def zeros128 : String := String.mk (List.replicate 128 '0')

/-- Standard base64 of 64 zero bytes. -/
def b64Zeros64 : String := String.mk (List.replicate 86 'A') ++ "=="

/-- A checksum.sri qualifier value carrying `zeros128` as a sha512 digest. -/
def sriZeros : String := "sha512-" ++ b64Zeros64

/-- The sha512 digest of the empty byte sequence. -/
def sha512EmptyHex : String :=
  "cf83e1357eefb8bdf1542850d66d8007d620e4050b5715dc83f4a921d36ce9ce47d0d13c5d85f2b0ff8318d2877eec2f63b931bd47417a81a538327af927da3e"

/-- The events of one attempted URI inside the URI loop. -/
def uriAttemptEvs (cache : CacheModel) (http : String → HttpResult) (hasher : Option Hasher)
    (hash uri : String) : List Ev :=
  .uriStart uri :: (fetchItem cache http hasher uri hash).snd

/-! ## Helper lemmas: hex output shape -/

theorem length_beBytes (k n : Nat) : (beBytes k n).length = k := by
  induction k generalizing n with
  | zero => rfl
  | succ k ih => simp [beBytes, ih]

theorem hexDigitChar_spec (n : Nat) :
    isHexLowerChar (hexDigitChar n) = true ∧ (hexDigitChar n).utf8Size = 1 := by
  have h16 : n % 16 < 16 := Nat.mod_lt _ (by decide)
  have hall : ∀ m, m < 16 →
      isHexLowerChar (hexTable.getD m '0') = true ∧ (hexTable.getD m '0').utf8Size = 1 := by
    decide
  simpa [hexDigitChar] using hall (n % 16) h16

theorem hexEncodeChars_cons (b : Nat) (bs : List Nat) :
    hexEncodeChars (b :: bs) = byteHexChars b ++ hexEncodeChars bs := rfl

theorem hexEncodeChars_props (bs : List Nat) :
    (hexEncodeChars bs).length = 2 * bs.length ∧
    ∀ c ∈ hexEncodeChars bs, isHexLowerChar c = true ∧ c.utf8Size = 1 := by
  induction bs with
  | nil => exact ⟨rfl, by intro c hc; cases hc⟩
  | cons b bs ih =>
    constructor
    · rw [hexEncodeChars_cons, List.length_append, ih.1]
      simp [byteHexChars]
      omega
    · intro c hc
      rw [hexEncodeChars_cons, List.mem_append] at hc
      rcases hc with hc | hc
      · simp only [byteHexChars, List.mem_cons, List.mem_singleton] at hc
        rcases hc with hc | hc | hc <;> simp_all [hexDigitChar_spec]
      · exact ih.2 c hc

theorem utf8ByteSizeGo_all_one (l : List Char) (h : ∀ c ∈ l, c.utf8Size = 1) :
    String.utf8ByteSize.go l = l.length := by
  induction l with
  | nil => rfl
  | cons c cs ih =>
    have hc := h c (List.mem_cons_self _ _)
    have ih2 := ih (fun d hd => h d (List.mem_cons_of_mem _ hd))
    rw [show String.utf8ByteSize.go (c :: cs) = String.utf8ByteSize.go cs + c.utf8Size from rfl,
      ih2, hc, List.length_cons]

theorem hexEncodeString_utf8ByteSize (bs : List Nat) :
    (hexEncodeString bs).utf8ByteSize = 2 * bs.length := by
  show String.utf8ByteSize.go (hexEncodeChars bs) = 2 * bs.length
  rw [utf8ByteSizeGo_all_one _ (fun c hc => ((hexEncodeChars_props bs).2 c hc).2)]
  exact (hexEncodeChars_props bs).1

theorem hexRegexMatch_hexEncode (bs : List Nat) :
    hexRegexMatch (2 * bs.length) (hexEncodeString bs) = true := by
  have hprops := hexEncodeChars_props bs
  simp only [hexRegexMatch, hexEncodeString, Bool.and_eq_true, beq_iff_eq, List.all_eq_true]
  exact ⟨hprops.1, fun c hc => (hprops.2 c hc).1⟩

theorem sha384Bytes_length (x : List Nat) : (sha384Bytes x).length = 48 := by
  simp [sha384Bytes, length_beBytes]

theorem sha512Bytes_length (x : List Nat) : (sha512Bytes x).length = 64 := by
  simp [sha512Bytes, length_beBytes]

/-- Request with a dash-less checksum.sri value. -/
def reqNoDash : FetchBlobRequest := { qualifiers := [some ⟨"checksum.sri", "sha512"⟩] }

/-- Request with the zero-digest sha512 qualifier and one URI. -/
def reqSriOnly : FetchBlobRequest :=
  { qualifiers := [some ⟨"checksum.sri", sriZeros⟩], uris := ["http://m"] }

/-- Request with a valid sha512 qualifier followed by a nil qualifier. -/
def reqSriNil : FetchBlobRequest :=
  { qualifiers := [some ⟨"checksum.sri", sriZeros⟩, none], uris := ["http://x"] }

/-- Request whose only qualifier is nil. -/
def reqNilQual : FetchBlobRequest := { qualifiers := [none], uris := ["http://x"] }

/-- Request with a sha512 hint and three URIs. -/
def reqUris3 : FetchBlobRequest :=
  { digestFunction := .sha512, uris := ["http://a", "http://b", "http://c"] }

set_option maxRecDepth 200000

/-! ## Helper lemmas: loop unfolding and composition -/

theorem qualLoop_nil (cache : CacheModel) (i : Nat) (hasher : Option Hasher) (hash : String) :
    qualLoop cache i hasher hash [] = (.fallthru hasher hash, []) := rfl

theorem qualLoop_cons (cache : CacheModel) (i : Nat) (hasher : Option Hasher) (hash : String)
    (q : Option Qualifier) (qs : List (Option Qualifier)) :
    qualLoop cache i hasher hash (q :: qs) =
      match qualStep cache q hasher hash with
      | (.panicked, evs) => (.panicked, .qualStart i :: evs)
      | (.ret r, evs) => (.ret r, .qualStart i :: evs)
      | (.cont hasher2 hash2, evs) =>
        let (res, evs2) := qualLoop cache (i + 1) hasher2 hash2 qs
        (res, (.qualStart i :: evs) ++ evs2) := rfl

theorem uriLoop_nil (cache : CacheModel) (http : String → HttpResult) (hasher : Option Hasher)
    (hash : String) : uriLoop cache http hasher hash [] = (.response notFoundResponse, []) := rfl

theorem uriLoop_cons (cache : CacheModel) (http : String → HttpResult) (hasher : Option Hasher)
    (hash uri : String) (uris : List String) :
    uriLoop cache http hasher hash (uri :: uris) =
      match fetchItem cache http hasher uri hash with
      | (none, evs) => (.panicked, .uriStart uri :: evs)
      | (some (true, actualHash, size), evs) =>
        match hasher with
        | none => (.panicked, .uriStart uri :: evs)
        | some h =>
          (.response (okUriResponse h.digestFunction actualHash size uri), .uriStart uri :: evs)
      | (some (false, _, _), evs) =>
        let (res, evs2) := uriLoop cache http hasher hash uris
        (res, (.uriStart uri :: evs) ++ evs2) := rfl

theorem fetchBlob_some (cache : CacheModel) (http : String → HttpResult)
    (r : FetchBlobRequest) :
    fetchBlob cache http (some r) =
      match qualLoop cache 0 (hashingGet r.digestFunction) "" r.qualifiers with
      | (.panicked, evs) => (.panicked, .getHasher r.digestFunction :: evs)
      | (.ret resp, evs) => (.response resp, .getHasher r.digestFunction :: evs)
      | (.fallthru hasher2 hash, evs) =>
        let (out, evs2) := uriLoop cache http hasher2 hash r.uris
        (out, .getHasher r.digestFunction :: (evs ++ evs2)) := rfl

/-- Qualifier-loop step: a panicking qualifier stops the loop. -/
theorem qualLoop_cons_panicked {cache : CacheModel} {q : Option Qualifier}
    {hasher : Option Hasher} {hash : String} {sevs : List Ev} (i : Nat)
    (hstep : qualStep cache q hasher hash = (.panicked, sevs))
    (qs : List (Option Qualifier)) :
    qualLoop cache i hasher hash (q :: qs) = (.panicked, .qualStart i :: sevs) := by
  rw [qualLoop_cons, hstep]

/-- Qualifier-loop step: a returning qualifier short-circuits the loop. -/
theorem qualLoop_cons_ret {cache : CacheModel} {q : Option Qualifier}
    {hasher : Option Hasher} {hash : String} {r : FetchBlobResponse} {sevs : List Ev}
    (i : Nat) (hstep : qualStep cache q hasher hash = (.ret r, sevs))
    (qs : List (Option Qualifier)) :
    qualLoop cache i hasher hash (q :: qs) = (.ret r, .qualStart i :: sevs) := by
  rw [qualLoop_cons, hstep]

/-- Qualifier-loop step: a continuing qualifier passes its state on. -/
theorem qualLoop_cons_cont {cache : CacheModel} {q : Option Qualifier}
    {hasher h3 : Option Hasher} {hash hs3 : String} {sevs : List Ev} (i : Nat)
    (hstep : qualStep cache q hasher hash = (.cont h3 hs3, sevs))
    {qs : List (Option Qualifier)} {res : QualRes} {evs2 : List Ev}
    (hrest : qualLoop cache (i + 1) h3 hs3 qs = (res, evs2)) :
    qualLoop cache i hasher hash (q :: qs) = (res, (.qualStart i :: sevs) ++ evs2) := by
  rw [qualLoop_cons, hstep]
  show ((qualLoop cache (i + 1) h3 hs3 qs).fst,
    (Ev.qualStart i :: sevs) ++ (qualLoop cache (i + 1) h3 hs3 qs).snd) = _
  rw [hrest]

/-- URI-loop step: a failed URI attempt moves on to the remaining URIs. -/
theorem uriLoop_cons_failed {cache : CacheModel} {http : String → HttpResult}
    {hasher : Option Hasher} {hash u : String} {x : String} {y : Int} {fevs : List Ev}
    (uris : List String)
    (hf : fetchItem cache http hasher u hash = (some (false, x, y), fevs))
    {out : FetchOutcome} {evs2 : List Ev}
    (hrest : uriLoop cache http hasher hash uris = (out, evs2)) :
    uriLoop cache http hasher hash (u :: uris) = (out, (.uriStart u :: fevs) ++ evs2) := by
  rw [uriLoop_cons, hf]
  show ((uriLoop cache http hasher hash uris).fst,
    (Ev.uriStart u :: fevs) ++ (uriLoop cache http hasher hash uris).snd) = _
  rw [hrest]

/-- URI-loop step: a successful URI attempt returns the OK response built
from the hasher's digest function, the hash, the size and this URI. -/
theorem uriLoop_cons_success {cache : CacheModel} {http : String → HttpResult}
    {hash u ah : String} {sz : Int} {fevs : List Ev} {h : Hasher}
    (uris : List String)
    (hf : fetchItem cache http (some h) u hash = (some (true, ah, sz), fevs)) :
    uriLoop cache http (some h) hash (u :: uris) =
      (.response (okUriResponse h.digestFunction ah sz u), .uriStart u :: fevs) := by
  rw [uriLoop_cons, hf]

/-- If a prefix of the qualifier list falls through, the loop over an
extended list continues with the prefix's final state and accumulated
events. -/
theorem qualLoop_append {cache : CacheModel} {hasher hasher2 : Option Hasher}
    {hash hash2 : String} {qs₁ : List (Option Qualifier)} {evs : List Ev}
    (i : Nat) (qs₂ : List (Option Qualifier))
    (h : qualLoop cache i hasher hash qs₁ = (.fallthru hasher2 hash2, evs))
    {res : QualRes} {evs2 : List Ev}
    (h2 : qualLoop cache (i + qs₁.length) hasher2 hash2 qs₂ = (res, evs2)) :
    qualLoop cache i hasher hash (qs₁ ++ qs₂) = (res, evs ++ evs2) := by
  induction qs₁ generalizing i hasher hash evs with
  | nil =>
    rw [qualLoop_nil] at h
    injection h with ha hb
    injection ha with ha1 ha2
    subst ha1; subst ha2; subst hb
    simpa using h2
  | cons q qs ih =>
    rcases hstep : qualStep cache q hasher hash with ⟨qi, sevs⟩
    cases qi with
    | panicked =>
      rw [qualLoop_cons_panicked i hstep qs] at h
      simp at h
    | ret r =>
      rw [qualLoop_cons_ret i hstep qs] at h
      simp at h
    | cont h3 hs3 =>
      rcases hrec : qualLoop cache (i + 1) h3 hs3 qs with ⟨res1, evs1⟩
      rw [qualLoop_cons_cont i hstep hrec] at h
      injection h with ha hb
      subst ha
      have h2b : qualLoop cache (i + 1 + qs.length) hasher2 hash2 qs₂ = (res, evs2) := by
        have heq : i + (q :: qs).length = i + 1 + qs.length := by
          simp [List.length_cons]
          omega
        rw [← heq]
        exact h2
      have hrest := ih (i + 1) hrec h2b
      rw [List.cons_append, qualLoop_cons_cont i hstep hrest]
      subst hb
      simp [List.append_assoc]

/-- If every URI in a prefix fails, the loop over the extended list
continues past it, accumulating only each failed attempt's events. -/
theorem uriLoop_skip_failed {cache : CacheModel} {http : String → HttpResult}
    {hasher : Option Hasher} {hash : String} {us₁ : List String} (us₂ : List String)
    (hfail : ∀ uri ∈ us₁, (fetchItem cache http hasher uri hash).fst = some (false, "", -1))
    {out : FetchOutcome} {evs2 : List Ev}
    (h2 : uriLoop cache http hasher hash us₂ = (out, evs2)) :
    uriLoop cache http hasher hash (us₁ ++ us₂) =
      (out, (us₁.map (uriAttemptEvs cache http hasher hash)).flatten ++ evs2) := by
  induction us₁ with
  | nil => simpa using h2
  | cons u us ih =>
    have hu := hfail u (List.mem_cons_self _ _)
    rcases hf : fetchItem cache http hasher u hash with ⟨fres, fevs⟩
    have hu2 : fres = some (false, "", -1) := by
      rw [hf] at hu
      exact hu
    subst hu2
    have hrest := ih (fun v hv => hfail v (List.mem_cons_of_mem _ hv))
    rw [List.cons_append, uriLoop_cons_failed (us ++ us₂) hf hrest]
    simp [uriAttemptEvs, hf, List.append_assoc]

/-- If every URI fails, the loop returns the embedded NotFound response. -/
theorem uriLoop_all_failed {cache : CacheModel} {http : String → HttpResult}
    {hasher : Option Hasher} {hash : String} {uris : List String}
    (hfail : ∀ uri ∈ uris, (fetchItem cache http hasher uri hash).fst = some (false, "", -1)) :
    uriLoop cache http hasher hash uris =
      (.response notFoundResponse, (uris.map (uriAttemptEvs cache http hasher hash)).flatten) := by
  have h0 := uriLoop_skip_failed [] hfail (uriLoop_nil cache http hasher hash)
  simpa using h0

/-! ## Claim theorems -/

/-- C10 (confirmed): for every hasher implemented in this code (sha384 and
sha512) and every byte sequence x, Validate(Hash(x)) succeeds: Hash produces
a lowercase hexadecimal string of exactly 2*Size() bytes, passing both the
length check and the character-class check of Validate. -/
theorem validate_of_hash_succeeds (h : Hasher) (x : List Nat) :
    h.validate (h.hash x) = none := by
  cases h with
  | sha384 =>
    have hlen : (Hasher.hash .sha384 x).utf8ByteSize = 96 := by
      have hb := hexEncodeString_utf8ByteSize (sha384Bytes x)
      rw [sha384Bytes_length] at hb
      simpa [Hasher.hash] using hb
    have hre : hexRegexMatch 96 (Hasher.hash .sha384 x) = true := by
      have hb := hexRegexMatch_hexEncode (sha384Bytes x)
      rw [sha384Bytes_length] at hb
      simpa [Hasher.hash] using hb
    simp [Hasher.validate, hlen, hre]
  | sha512 =>
    have hlen : (Hasher.hash .sha512 x).utf8ByteSize = 128 := by
      have hb := hexEncodeString_utf8ByteSize (sha512Bytes x)
      rw [sha512Bytes_length] at hb
      simpa [Hasher.hash] using hb
    have hre : hexRegexMatch 128 (Hasher.hash .sha512 x) = true := by
      have hb := hexRegexMatch_hexEncode (sha512Bytes x)
      rw [sha512Bytes_length] at hb
      simpa [Hasher.hash] using hb
    simp [Hasher.validate, hlen, hre]

/-- C2 (code_bug evidence): the sha384 hasher's Empty() constant (sha386.go)
is the SHA-512 empty digest, copied from sha512.go.  Consequently, for the
sha384 hasher, Empty() fails its own Validate, differs from Hash of the
empty byte sequence, and does not have length 2*Size(); for the sha512
hasher the claimed properties do hold. -/
theorem sha384_empty_constant_is_sha512_digest :
    (Hasher.validate .sha384 (Hasher.empty .sha384)).isSome = true ∧
    Hasher.empty .sha384 ≠ Hasher.hash .sha384 [] ∧
    (Hasher.empty .sha384).utf8ByteSize ≠ 2 * Hasher.size .sha384 ∧
    Hasher.empty .sha512 = Hasher.hash .sha512 [] ∧
    Hasher.validate .sha512 (Hasher.empty .sha512) = none := by
  decide

/-- C8 (confirmed): TransformActionCacheKey returns the key unchanged for an
empty instance name, and for a non-empty instance name returns the lowercase
hex encoding of SHA256(key ++ instanceName).  The function takes no digest
function: the SHA-256 here is fixed, independent of any request-negotiated
digest function. -/
theorem transformActionCacheKey_spec :
    (∀ k, transformActionCacheKey k "" = k) ∧
    (∀ k i, i ≠ "" →
      transformActionCacheKey k i = hexEncodeString (sha256Bytes (strBytes k ++ strBytes i))) := by
  constructor
  · intro k
    simp [transformActionCacheKey]
  · intro k i hi
    simp [transformActionCacheKey, hi]

/-- C8 witness: the theorem applied at key "foo", instance "bar"; the
resulting digest is the SHA-256 of "foobar". -/
theorem transformActionCacheKey_spec_witness :
    transformActionCacheKey "foo" "" = "foo" ∧
    ("bar" ≠ "" ∧ transformActionCacheKey "foo" "bar" =
      hexEncodeString (sha256Bytes (strBytes "foo" ++ strBytes "bar"))) ∧
    transformActionCacheKey "foo" "bar" =
      "c3ab8ff13720e8ad9047dd39466b3c8974e592c2fa383d4a3960714caef0c4f2" := by
  refine ⟨transformActionCacheKey_spec.1 "foo",
    ⟨by decide, transformActionCacheKey_spec.2 "foo" "bar" (by decide)⟩, ?_⟩
  decide

/-- C5 (amended): a nil FetchBlob request is rejected with a transport-level
InvalidArgument error (nil response, non-nil error) before any qualifier,
cache, HTTP or URI work — but after the request's digest-function hint has
been resolved via the hasher registry, because the Go code performs that
nil-safe lookup (hint = zero value) before the nil check. -/
theorem nil_request_transport_invalid_argument (cache : CacheModel)
    (http : String → HttpResult) :
    fetchBlob cache http none =
      (.transportError codeInvalidArgument, [.getHasher .unknown]) := rfl

/-- C5 counterexample: refutes "before any other work is performed — in
particular before the request's digest-function hint is resolved via the
hasher registry": on a nil request the event trace is not empty; it records
exactly the registry lookup of the (zero-value) hint, performed before the
nil check and the transport error. -/
theorem nil_request_lookup_precedes_nil_check :
    (fetchBlob cacheMiss httpNone none).snd ≠ [] ∧
    (fetchBlob cacheMiss httpNone none).snd = [.getHasher .unknown] ∧
    (fetchBlob cacheMiss httpNone none).fst = .transportError codeInvalidArgument := by
  decide

/-- C4 (code_bug evidence): a checksum.sri qualifier whose value contains no
dash separator makes FetchBlob panic: strings.SplitN(value, "-", 2) yields a
one-element slice and the code unconditionally indexes parts[1].  The spec
requires malformed qualifier values to be soft failures (logged and
skipped), never a panic. -/
theorem sri_value_without_dash_panics :
    splitN2 "sha512" = ("sha512", none) ∧
    (fetchBlob cacheMiss httpNone (some reqNoDash)).fst = .panicked := by
  decide

/-- C6 counterexample: a request carrying a nil qualifier among
otherwise-valid qualifiers, where the earlier valid checksum.sri qualifier
scores a CAS hit: the response is OK and carries a blob digest — not an
embedded InvalidArgument and not digest-free — because the qualifier loop
returns before the nil qualifier is reached. -/
theorem nil_qualifier_after_hit_returns_ok :
    (fetchBlob cacheHit5 httpNone (some reqSriNil)).fst =
      .response (okHitResponse .sha512 zeros128 5) ∧
    (okHitResponse .sha512 zeros128 5).statusCode ≠ codeInvalidArgument ∧
    (okHitResponse .sha512 zeros128 5).blobDigest ≠ none := by
  decide

/-- C6 (amended): when the nil qualifier is actually encountered — every
qualifier before it is processed without resolving or panicking — the RPC
returns successfully (no transport error) with an embedded InvalidArgument
status carrying no digest function, no blob digest and no URI, and the
trace stops at the nil qualifier: no later qualifier and no URI is
attempted, and no cache or HTTP activity follows. -/
theorem nil_qualifier_encountered_aborts {cache : CacheModel} {http : String → HttpResult}
    {r : FetchBlobRequest} {qs₁ qs₂ : List (Option Qualifier)} {hasher2 : Option Hasher}
    {hash2 : String} {evs : List Ev}
    (hq : r.qualifiers = qs₁ ++ none :: qs₂)
    (h1 : qualLoop cache 0 (hashingGet r.digestFunction) "" qs₁ =
      (.fallthru hasher2 hash2, evs)) :
    fetchBlob cache http (some r) =
      (.response nilQualifierResponse,
        .getHasher r.digestFunction :: (evs ++ [.qualStart qs₁.length])) := by
  have hstep : qualStep cache none hasher2 hash2 = (.ret nilQualifierResponse, []) := rfl
  have hnil := qualLoop_cons_ret (0 + qs₁.length) hstep qs₂
  have happ := qualLoop_append 0 (none :: qs₂) h1 hnil
  rw [fetchBlob_some, hq, happ]
  simp

/-- C6 witness: the amended theorem applied to a request whose first
qualifier is nil. -/
theorem nil_qualifier_encountered_aborts_witness :
    fetchBlob cacheMiss httpNone (some reqNilQual) =
      (.response nilQualifierResponse, [.getHasher .unknown, .qualStart 0]) := by
  rw [nil_qualifier_encountered_aborts
    (show reqNilQual.qualifiers = [] ++ none :: [] from rfl)
    (show qualLoop cacheMiss 0 (hashingGet reqNilQual.digestFunction) "" [] =
      (.fallthru none "", []) from rfl)]
  rfl

/-- C7 (confirmed): a checksum.sri qualifier whose base64 payload decodes to
the hex digest of content present in CAS with a known non-negative size
makes FetchBlob return OK with exactly that hash and size and the
qualifier's digest function; the trace shows that no HTTP request is made
and that nothing after this qualifier — no later qualifier and no URI — is
attempted. -/
theorem sri_cache_hit_short_circuits {cache : CacheModel} {http : String → HttpResult}
    {r : FetchBlobRequest} {qs₁ qs₂ : List (Option Qualifier)} {q : Qualifier}
    {h₀ : Option Hasher} {hs₀ : String} {evs : List Ev}
    {algName b64 : String} {decoded : List Nat} {df : DigestFunction} {h : Hasher}
    {hash : String} {size : Int}
    (hq : r.qualifiers = qs₁ ++ some q :: qs₂)
    (h1 : qualLoop cache 0 (hashingGet r.digestFunction) "" qs₁ = (.fallthru h₀ hs₀, evs))
    (hname : q.name = "checksum.sri")
    (hsplit : splitN2 q.value = (algName, some b64))
    (hdec : base64Decode b64 = some decoded)
    (hhex : hexEncodeString decoded = hash)
    (hdf : digestFunctionByName algName = df)
    (hget : hashingGet df = some h)
    (hval : h.validate hash = none)
    (hcont : cache.contains .cas (some h) hash (-1) = (true, size))
    (hsz : 0 ≤ size) :
    fetchBlob cache http (some r) =
      (.response (okHitResponse df hash size),
        .getHasher r.digestFunction ::
          (evs ++ [.qualStart qs₁.length, .getHasher df, .containsQ hash])) := by
  have hneg : ¬ size < 0 := not_lt.mpr hsz
  have hstep : qualStep cache (some q) h₀ hs₀ =
      (.ret (okHitResponse df hash size), [.getHasher df, .containsQ hash]) := by
    simp only [qualStep, hname, hsplit, hdec, hhex, hdf, hget, hcont, hval,
      Option.isSome_none, Bool.false_eq_true, if_false, hneg, if_true, ite_false, ite_true,
      if_pos rfl]
  have hnil := qualLoop_cons_ret (0 + qs₁.length) hstep qs₂
  have happ := qualLoop_append 0 (some q :: qs₂) h1 hnil
  rw [fetchBlob_some, hq, happ]
  simp

/-- C7 witness: the theorem applied to a request whose sha512 qualifier hits
a CAS entry of size 5; the trailing nil qualifier and the URI are never
reached. -/
theorem sri_cache_hit_short_circuits_witness :
    fetchBlob cacheHit5 httpNone (some reqSriNil) =
      (.response (okHitResponse .sha512 zeros128 5),
        [.getHasher .unknown, .qualStart 0, .getHasher .sha512, .containsQ zeros128]) := by
  rw [sri_cache_hit_short_circuits
    (show reqSriNil.qualifiers = [] ++ some ⟨"checksum.sri", sriZeros⟩ :: [none] from rfl)
    (show qualLoop cacheHit5 0 (hashingGet reqSriNil.digestFunction) "" [] =
      (.fallthru none "", []) from rfl)
    (show Qualifier.name ⟨"checksum.sri", sriZeros⟩ = "checksum.sri" from rfl)
    (show splitN2 (Qualifier.value ⟨"checksum.sri", sriZeros⟩) = ("sha512", some b64Zeros64)
      by decide)
    (show base64Decode b64Zeros64 = some (List.replicate 64 0) by decide)
    (show hexEncodeString (List.replicate 64 0) = zeros128 by decide)
    (show digestFunctionByName "sha512" = .sha512 from rfl)
    (show hashingGet .sha512 = some .sha512 from rfl)
    (show Hasher.validate .sha512 zeros128 = none by decide)
    (show cacheHit5.contains .cas (some .sha512) zeros128 (-1) = (true, 5) from rfl)
    (show (0 : Int) ≤ 5 by decide)]
  rfl

/-- C9 (confirmed): after the qualifier phase falls through, FetchBlob tries
the request's URIs strictly in list order; the first URI on which fetchItem
succeeds determines the response — OK with that attempt's hash and size and
the originating URI — and the trace contains the attempts in order and
nothing for any later URI. -/
theorem first_uri_success_wins {cache : CacheModel} {http : String → HttpResult}
    {r : FetchBlobRequest} {h : Hasher} {hash : String} {qevs : List Ev}
    {us₁ us₂ : List String} {u actualHash : String} {size : Int} {uevs : List Ev}
    (hql : qualLoop cache 0 (hashingGet r.digestFunction) "" r.qualifiers =
      (.fallthru (some h) hash, qevs))
    (hu : r.uris = us₁ ++ u :: us₂)
    (hfail : ∀ v ∈ us₁, (fetchItem cache http (some h) v hash).fst = some (false, "", -1))
    (hsucc : fetchItem cache http (some h) u hash = (some (true, actualHash, size), uevs)) :
    fetchBlob cache http (some r) =
      (.response (okUriResponse h.digestFunction actualHash size u),
        .getHasher r.digestFunction ::
          (qevs ++ ((us₁.map (uriAttemptEvs cache http (some h) hash)).flatten ++
            (.uriStart u :: uevs)))) := by
  have hhead := uriLoop_cons_success us₂ hsucc
  have hloop := uriLoop_skip_failed (u :: us₂) hfail hhead
  rw [fetchBlob_some, hql, hu]
  show ((uriLoop cache http (some h) hash (us₁ ++ u :: us₂)).fst,
    Ev.getHasher r.digestFunction ::
      (qevs ++ (uriLoop cache http (some h) hash (us₁ ++ u :: us₂)).snd)) = _
  rw [hloop]

/-- C9 witness: three URIs where the first serves 404 and the second
succeeds; the result is the second URI's, and the trace contains nothing for
the third URI. -/
theorem first_uri_success_wins_witness :
    fetchBlob cacheMiss http404Then (some reqUris3) =
      (.response (okUriResponse .sha512 sha512EmptyHex 0 "http://b"),
        [.getHasher .sha512, .uriStart "http://a", .httpGet "http://a",
          .uriStart "http://b", .httpGet "http://b", .hashData [],
          .putCall sha512EmptyHex 0]) := by
  rw [first_uri_success_wins
    (show qualLoop cacheMiss 0 (hashingGet reqUris3.digestFunction) "" reqUris3.qualifiers =
      (.fallthru (some .sha512) "", []) from rfl)
    (show reqUris3.uris = ["http://a"] ++ "http://b" :: ["http://c"] from rfl)
    (show ∀ v ∈ ["http://a"],
      (fetchItem cacheMiss http404Then (some .sha512) v "").fst = some (false, "", -1)
      by decide)
    (show fetchItem cacheMiss http404Then (some .sha512) "http://b" "" =
      (some (true, sha512EmptyHex, 0),
        [.httpGet "http://b", .hashData [], .putCall sha512EmptyHex 0]) by decide)]
  rfl

/-- C1 (amended): a hash mismatch aborts a URI attempt whenever this layer
actually hashes the body, i.e. when the 2xx response does NOT declare a
non-negative Content-Length (so the body is buffered and hashed); and when
every URI of the request fails, FetchBlob returns a response with embedded
NotFound.  (When a 2xx response declares a non-negative Content-Length the
bytes are accepted unverified — see the counterexample and C3.) -/
theorem mismatch_rejected_and_notfound :
    (∀ (cache : CacheModel) (http : String → HttpResult) (h : Hasher) (uri hash : String)
      (status : Nat) (cl : Int) (body : List Nat) (berr : Bool),
      hash ≠ "" → http uri = .resp status cl body berr → 200 ≤ status → status < 300 →
      cl < 0 → Hasher.hash h body ≠ hash →
      (fetchItem cache http (some h) uri hash).fst = some (false, "", -1)) ∧
    (∀ (cache : CacheModel) (http : String → HttpResult) (r : FetchBlobRequest)
      (hasher2 : Option Hasher) (hash : String) (qevs : List Ev),
      qualLoop cache 0 (hashingGet r.digestFunction) "" r.qualifiers =
        (.fallthru hasher2 hash, qevs) →
      (∀ uri ∈ r.uris, (fetchItem cache http hasher2 uri hash).fst = some (false, "", -1)) →
      (fetchBlob cache http (some r)).fst = .response notFoundResponse) := by
  constructor
  · intro cache http h uri hash status cl body berr hh hresp hs1 hs2 hcl hmis
    have hst : ¬ (status < 200 ∨ 300 ≤ status) := by omega
    rcases hsch : uriScheme uri with _ | s
    · simp [fetchItem, hsch]
    · by_cases hs : s ≠ "http" ∧ s ≠ "https"
      · simp [fetchItem, hsch, hs]
      · cases berr with
        | true => simp [fetchItem, hsch, hs, hresp, hst, hh, hcl]
        | false => simp [fetchItem, hsch, hs, hresp, hst, hh, hcl, hmis]
  · intro cache http r hasher2 hash qevs hql hfail
    have hloop := uriLoop_all_failed hfail
    have hfull : fetchBlob cache http (some r) =
        (.response notFoundResponse,
          .getHasher r.digestFunction ::
            (qevs ++ (r.uris.map (uriAttemptEvs cache http hasher2 hash)).flatten)) := by
      rw [fetchBlob_some, hql]
      show ((uriLoop cache http hasher2 hash r.uris).fst,
        Ev.getHasher r.digestFunction ::
          (qevs ++ (uriLoop cache http hasher2 hash r.uris).snd)) = _
      rw [hloop]
    rw [hfull]

/-- C1 witness: the theorem applied with the zero sha512 digest as expected
hash, a cache miss, and a single URI serving an empty 2xx body with unknown
Content-Length: the body hashes to the sha512 empty digest, not the expected
value, the attempt is rejected, and FetchBlob returns NotFound. -/
theorem mismatch_rejected_and_notfound_witness :
    (fetchItem cacheMiss httpOkNoLen (some .sha512) "http://m" zeros128).fst =
      some (false, "", -1) ∧
    (fetchBlob cacheMiss httpOkNoLen (some reqSriOnly)).fst = .response notFoundResponse := by
  constructor
  · exact mismatch_rejected_and_notfound.1 cacheMiss httpOkNoLen .sha512 "http://m" zeros128
      200 (-1) [] false (by decide) rfl (by decide) (by decide) (by decide) (by decide)
  · exact mismatch_rejected_and_notfound.2 cacheMiss httpOkNoLen reqSriOnly (some .sha512)
      zeros128 [.qualStart 0, .getHasher .sha512, .containsQ zeros128]
      (by decide) (by decide)

/-- C1 counterexample: with the same deliberately wrong expected digest and
a URI whose served content hashes to a different value, but whose 2xx
response declares a non-negative Content-Length, the fetched bytes ARE
accepted under the expected hash and FetchBlob returns OK with that hash —
not NotFound — refuting the claim's "regardless of whether the response
declares a non-negative Content-Length". -/
theorem mismatch_accepted_with_content_length :
    Hasher.hash .sha512 [] ≠ zeros128 ∧
    (fetchBlob cacheMiss httpOkLen0 (some reqSriOnly)).fst =
      .response (okUriResponse .sha512 zeros128 0 "http://m") ∧
    (okUriResponse .sha512 zeros128 0 "http://m").statusCode = codeOK := by
  decide

/-- C3 (confirmed): when fetchItem has a non-empty expected hash and the 2xx
response declares a non-negative Content-Length, no hash is computed over
the body in this layer: for any two bodies (and any body-read-error flags),
provided the cache Put does not fail, fetchItem returns the identical
triple (true, expectedHash, ContentLength), and the trace contains no
hash-computation event — the bytes are streamed to Put unverified. -/
theorem streamed_put_ignores_body :
    ∀ (cache : CacheModel) (h : Hasher) (uri hash : String) (status : Nat) (cl : Int)
      (body₁ body₂ : List Nat) (berr₁ berr₂ : Bool),
      hash ≠ "" → 200 ≤ status → status < 300 → 0 ≤ cl →
      (uriScheme uri = some "http" ∨ uriScheme uri = some "https") →
      cache.put .cas (some h) hash cl body₁ ≠ some .otherErr →
      cache.put .cas (some h) hash cl body₂ ≠ some .otherErr →
      (fetchItem cache (fun _ => .resp status cl body₁ berr₁) (some h) uri hash).fst
          = some (true, hash, cl) ∧
      (fetchItem cache (fun _ => .resp status cl body₂ berr₂) (some h) uri hash).fst
          = some (true, hash, cl) ∧
      ∀ d, Ev.hashData d ∉
        (fetchItem cache (fun _ => .resp status cl body₁ berr₁) (some h) uri hash).snd := by
  intro cache h uri hash status cl body₁ body₂ berr₁ berr₂ hh hs1 hs2 hcl hsch hput₁ hput₂
  have hst : ¬ (status < 200 ∨ 300 ≤ status) := by omega
  have hncl : ¬ cl < 0 := not_lt.mpr hcl
  have key : ∀ (body : List Nat) (berr : Bool),
      cache.put .cas (some h) hash cl body ≠ some .otherErr →
      fetchItem cache (fun _ => .resp status cl body berr) (some h) uri hash
        = (some (true, hash, cl), [.httpGet uri, .putCall hash cl]) := by
    intro body berr hput
    rcases hput2 : cache.put .cas (some h) hash cl body with _ | po
    · rcases hsch with hsch | hsch <;>
        simp [fetchItem, hsch, hst, hh, hncl, hput2]
    · cases po with
      | eofErr =>
        rcases hsch with hsch | hsch <;>
          simp [fetchItem, hsch, hst, hh, hncl, hput2]
      | otherErr => exact absurd hput2 hput
  refine ⟨by rw [key body₁ berr₁ hput₁], by rw [key body₂ berr₂ hput₂], ?_⟩
  intro d
  rw [key body₁ berr₁ hput₁]
  simp

/-- C3 witness: the theorem applied at two different bodies (of lengths that
even disagree with the declared Content-Length): both attempts succeed with
the expected hash and declared length, and no hash-computation event occurs
for the first body. -/
theorem streamed_put_ignores_body_witness :
    (fetchItem cacheMiss (fun _ => .resp 200 3 [1, 2, 3] false)
      (some .sha512) "http://m" zeros128).fst = some (true, zeros128, 3) ∧
    (fetchItem cacheMiss (fun _ => .resp 200 3 [9, 9, 9, 9] false)
      (some .sha512) "http://m" zeros128).fst = some (true, zeros128, 3) ∧
    Ev.hashData [1, 2, 3] ∉
      (fetchItem cacheMiss (fun _ => .resp 200 3 [1, 2, 3] false)
        (some .sha512) "http://m" zeros128).snd := by
  have happ := streamed_put_ignores_body cacheMiss .sha512 "http://m" zeros128 200 3
    [1, 2, 3] [9, 9, 9, 9] false false (by decide) (by decide) (by decide) (by decide)
    (by decide) (by decide) (by decide)
  exact ⟨happ.1, happ.2.1, happ.2.2 [1, 2, 3]⟩

end BazelRemote
